import Mathlib

/-!
Verification development for the L3GS gaussian-splatting population-management
core (files ll_gaussian_splatting.py — the current variant — and
ll_gaussian_splatting_old.py — the older variant — of the L3GS repository).

Modelling conventions.
* Per-point attribute rows are modelled columnwise: a Store holds one list per
  attribute (means, scales, quats, colorsAll, opacities).  Row payloads whose
  internal structure no claim inspects (positions, colors, quaternions in the
  population-management claims) are abstracted to a single rational; log-scales
  keep their three components because the code takes a per-axis exp and max.
  The older variant stores colors as the pair features_dc / features_rest; both
  are carried here by the single colorsAll payload, which is appended, selected
  and compacted with exactly the same masks as the other attributes.
* The numeric library primitives torch.sigmoid, torch.exp, torch.log and
  torch.logit are external collaborators; they are passed in as an abstract
  record Nm of rational functions so that every structural definition stays
  executable.  Closed witnesses instantiate them with concrete rational
  functions whose threshold behaviour at the sampled inputs matches the real
  activations (for example sigmoid 0 = 1/2 exactly, exp 2 close to 7.389).
* torch.rand / torch.randn draws are passed in as explicit inputs (an offset
  function for split sampling, a generator for fresh quaternions).
* random_quat_tensor is additionally embedded over the reals, because the
  unit-norm claim about it is stated in exact-real arithmetic.
-/

/-! ## Generic list helpers -/

/-- Number of true entries of a boolean mask. -/
def countTrue : List Bool → ℕ
  | [] => 0
  | b :: bs => (if b then 1 else 0) + countTrue bs

/-- Boolean-mask selection, the model of tensor indexing xs[mask]. -/
def sel : List Bool → List α → List α
  | _, [] => []
  | [], _ :: _ => []
  | b :: bs, x :: xs => if b then x :: sel bs xs else sel bs xs

/-- Boolean-mask compaction, the model of tensor indexing xs[~mask]:
keep exactly the rows whose mask entry is false, preserving order. -/
def keepNot : List Bool → List α → List α
  | _, [] => []
  | [], _ :: _ => []
  | b :: bs, x :: xs => if b then keepNot bs xs else x :: keepNot bs xs

/-- Model of tensor tiling xs.repeat(s, 1): s concatenated copies of xs. -/
def tile (s : ℕ) (xs : List α) : List α :=
  match s with
  | 0 => []
  | n + 1 => xs ++ tile n xs

/-- Apply f to exactly the masked entries, leaving the rest in place:
the model of the in-place update xs[mask] = f(xs[mask]). -/
def applyMasked (f : α → α) : List α → List Bool → List α
  | [], _ => []
  | xs, [] => xs
  | x :: xs, b :: bs => (if b then f x else x) :: applyMasked f xs bs

/-- Add a per-row offset drawn from an external sample stream. -/
def addOffsets (offsets : ℕ → ℚ) : ℕ → List ℚ → List ℚ
  | _, [] => []
  | i, x :: xs => (x + offsets i) :: addOffsets offsets (i + 1) xs

/-- Maximum entry of a list, the model of tensor .max() on a nonempty tensor. -/
def listMax : List ℚ → ℚ
  | [] => 0
  | x :: xs => xs.foldl max x

theorem countTrue_append (a b : List Bool) :
    countTrue (a ++ b) = countTrue a + countTrue b := by
  induction a with
  | nil => simp [countTrue]
  | cons x xs ih => simp [countTrue, ih]; omega

theorem sel_length : ∀ (bs : List Bool) (xs : List α),
    bs.length = xs.length → (sel bs xs).length = countTrue bs
  | [], [], _ => by simp [sel, countTrue]
  | [], _ :: _, h => by simp at h
  | _ :: _, [], h => by simp at h
  | b :: bs, x :: xs, h => by
      have h' : bs.length = xs.length := by simpa using h
      cases b <;> simp [sel, countTrue, sel_length bs xs h'] <;> omega

theorem keepNot_length : ∀ (bs : List Bool) (xs : List α),
    bs.length = xs.length → (keepNot bs xs).length = xs.length - countTrue bs
  | [], [], _ => by simp [keepNot, countTrue]
  | [], _ :: _, h => by simp at h
  | _ :: _, [], h => by simp at h
  | b :: bs, x :: xs, h => by
      have h' : bs.length = xs.length := by simpa using h
      have hc : countTrue bs ≤ bs.length := by
        clear h h'
        induction bs with
        | nil => simp [countTrue]
        | cons c cs ih => cases c <;> simp [countTrue, ih] <;> omega
      cases b <;> simp [keepNot, countTrue, keepNot_length bs xs h'] <;> omega

theorem tile_length (s : ℕ) (xs : List α) : (tile s xs).length = s * xs.length := by
  induction s with
  | zero => simp [tile]
  | succ n ih => simp [tile, ih, Nat.succ_mul]; omega

theorem applyMasked_length (f : α → α) :
    ∀ (xs : List α) (bs : List Bool), (applyMasked f xs bs).length = xs.length
  | [], _ => by cases bs' : ([] : List Bool) <;> simp [applyMasked]
  | _ :: _, [] => by simp [applyMasked]
  | x :: xs, b :: bs => by simp [applyMasked, applyMasked_length f xs bs]

theorem addOffsets_length (offsets : ℕ → ℚ) :
    ∀ (i : ℕ) (xs : List ℚ), (addOffsets offsets i xs).length = xs.length
  | _, [] => by simp [addOffsets]
  | i, x :: xs => by simp [addOffsets, addOffsets_length offsets (i + 1) xs]

theorem take_len_append (xs ys : List α) : (xs ++ ys).take xs.length = xs := by
  induction xs with
  | nil => simp
  | cons a t ih => simp [ih]

/-! ## Data model: the Point Store, the per-attribute optimizer moments, and
the transient density-control state -/

/-- Training-time configuration, from LLGaussianSplattingModelConfig
(current variant) and GaussianSplattingModelConfig fields used by it. -/
structure Config where
  warmupLength : ℕ
  refineEvery : ℕ
  cullAlphaThresh : ℚ
  cullScaleThresh : ℚ
  resetAlphaEvery : ℕ
  densifyGradThresh : ℚ
  densifySizeThresh : ℚ
  nSplitSamples : ℕ
  cullScreenSize : ℚ
  splitScreenSize : ℚ
  stopScreenSizeAt : ℕ
  stopSplitAt : ℕ
  continueCullPostDensification : Bool
deriving DecidableEq

/-- Default values of the configuration dataclass in the current variant. -/
def defaultConfig : Config where
  warmupLength := 1000
  refineEvery := 75
  cullAlphaThresh := 1 / 10
  cullScaleThresh := 29 / 10
  resetAlphaEvery := 60
  densifyGradThresh := 5 / 100000
  densifySizeThresh := 1 / 100
  nSplitSamples := 2
  cullScreenSize := 9 / 10
  splitScreenSize := 9 / 10000
  stopScreenSizeAt := 4000
  stopSplitAt := 50000
  continueCullPostDensification := true

/-- Abstract interface to the external numeric library: torch.sigmoid,
torch.exp, torch.log, torch.logit, all elementwise scalar maps. -/
structure Nm where
  sigmoid : ℚ → ℚ
  exp : ℚ → ℚ
  log : ℚ → ℚ
  logit : ℚ → ℚ

/-- The Point Store: one list per per-primitive attribute.  All five lists are
meant to share one length, the population size. -/
structure Store where
  means : List ℚ
  scales : List (ℚ × ℚ × ℚ)
  quats : List ℚ
  colorsAll : List ℚ
  opacities : List ℚ
deriving DecidableEq

/-- First and second moment buffers of one tracked optimizer
(param_state exp_avg and exp_avg_sq). -/
structure AdamState where
  expAvg : List ℚ
  expAvgSq : List ℚ
deriving DecidableEq

/-- One optimizer per tracked Point-Store attribute group (the lerf group is
optimized independently and never resized by population events). -/
structure Opts where
  xyz : AdamState
  color : AdamState
  opacity : AdamState
  scaling : AdamState
  rotation : AdamState
deriving DecidableEq

/-- The mutable model state the density-control engine reads and writes:
the Point Store, the external optimizer moments, the accumulated screen-space
statistics (None between refinement passes) and the steps-since-growth
counter. -/
structure Model where
  store : Store
  opts : Opts
  xysGradNorm : Option (List ℚ)
  visCounts : Option (List ℚ)
  max2Dsize : Option (List ℚ)
  stepsSinceAdd : ℕ
deriving DecidableEq

/-- Componentwise exp of a log-scale row followed by the max over the three
axes: the model of torch.exp(scales).max(dim=-1).values for one row. -/
def expMax3 (nm : Nm) (s : ℚ × ℚ × ℚ) : ℚ :=
  max (max (nm.exp s.1) (nm.exp s.2.1)) (nm.exp s.2.2)

/-! ## Alignment invariant (the data-model invariant of claim C1) -/

/-- All five attribute arrays share one length. -/
def alignedStore (st : Store) : Prop :=
  st.scales.length = st.means.length ∧ st.quats.length = st.means.length ∧
  st.colorsAll.length = st.means.length ∧ st.opacities.length = st.means.length

/-- Both moment buffers of one tracked optimizer have length n. -/
def adamAligned (a : AdamState) (n : ℕ) : Prop :=
  a.expAvg.length = n ∧ a.expAvgSq.length = n

/-- The full invariant: attribute arrays mutually equal in length, and every
moment buffers of every tracked optimizer of that same length. -/
def alignedModel (st : Store) (o : Opts) : Prop :=
  alignedStore st ∧
  adamAligned o.xyz st.means.length ∧ adamAligned o.color st.means.length ∧
  adamAligned o.opacity st.means.length ∧ adamAligned o.scaling st.means.length ∧
  adamAligned o.rotation st.means.length

instance (st : Store) : Decidable (alignedStore st) := by
  unfold alignedStore; infer_instance

instance (a : AdamState) (n : ℕ) : Decidable (adamAligned a n) := by
  unfold adamAligned; infer_instance

instance (st : Store) (o : Opts) : Decidable (alignedModel st o) := by
  unfold alignedModel; infer_instance

/-! ## Optimizer State Synchronizer -/

/-- Model of dup_in_optim (older variant lines 523-546, inherited by the
current variant): append k * n zero rows to both moment buffers, where k is
the number of selected indices and n the per-index multiplier.  The appended
rows are zeros_like of the selected rows, so only their count matters. -/
def dupInOptim (a : AdamState) (k n : ℕ) : AdamState :=
  ⟨a.expAvg ++ List.replicate (n * k) 0, a.expAvgSq ++ List.replicate (n * k) 0⟩

/-- Apply dup_in_optim to every tracked attribute group (dup_in_all_optim). -/
def dupInAllOptim (o : Opts) (k n : ℕ) : Opts :=
  ⟨dupInOptim o.xyz k n, dupInOptim o.color k n, dupInOptim o.opacity k n,
   dupInOptim o.scaling k n, dupInOptim o.rotation k n⟩

/-- Model of remove_from_optim: boolean-compact both moment buffers by the
complement of the deletion mask. -/
def removeFromOptim (mask : List Bool) (a : AdamState) : AdamState :=
  ⟨keepNot mask a.expAvg, keepNot mask a.expAvgSq⟩

/-- Apply remove_from_optim to every tracked attribute group. -/
def removeFromAllOptim (mask : List Bool) (o : Opts) : Opts :=
  ⟨removeFromOptim mask o.xyz, removeFromOptim mask o.color,
   removeFromOptim mask o.opacity, removeFromOptim mask o.scaling,
   removeFromOptim mask o.rotation⟩

/-- Model of add_new_params_to_optimizer in the CURRENT variant
(ll_gaussian_splatting.py lines 274-309): extend both moment buffers by
numNew rows of zeros (torch.zeros_like of the last row, repeated). -/
def addNewParamsToOptimizer (a : AdamState) (numNew : ℕ) : AdamState :=
  ⟨a.expAvg ++ List.replicate numNew 0, a.expAvgSq ++ List.replicate numNew 0⟩

/-- Model of add_new_params_to_optimizer in the OLDER variant
(ll_gaussian_splatting_old.py lines 378-412): extend both moment buffers by
numNew rows filled with the constant 0.4 (torch.ones_like(...) * 0.4). -/
def addNewParamsToOptimizerOldVariant (a : AdamState) (numNew : ℕ) : AdamState :=
  ⟨a.expAvg ++ List.replicate numNew (2 / 5), a.expAvgSq ++ List.replicate numNew (2 / 5)⟩

/-! ## Culling -/

/-- Cull mask of the CURRENT variant cull_gaussians
(ll_gaussian_splatting.py lines 373-395): only the transparency criterion
sigmoid(opacity) < cull_alpha_thresh is live; the scale-size and
screen-size criteria of that function are commented out in the source. -/
def cullMask (nm : Nm) (cfg : Config) (st : Store) : List Bool :=
  st.opacities.map (fun o => decide (nm.sigmoid o < cfg.cullAlphaThresh))

/-- Current-variant cull_gaussians: compute the mask and compact every
attribute array by its complement; returns the new store and the mask. -/
def cullGaussians (nm : Nm) (cfg : Config) (st : Store) : Store × List Bool :=
  let culls := cullMask nm cfg st
  (⟨keepNot culls st.means, keepNot culls st.scales, keepNot culls st.quats,
    keepNot culls st.colorsAll, keepNot culls st.opacities⟩, culls)

/-- Cull mask of the OLDER variant cull_gaussians
(ll_gaussian_splatting_old.py lines 713-749): transparency OR an optional
extra mask OR, once step is past refine_every * reset_alpha_every, the
too-big-in-world criterion, itself OR-ed with the screen-size criterion while
step < stop_screen_size_at.  Note the screen-size term lives INSIDE the
reset-cycle gate. -/
def cullMaskOldVariant (nm : Nm) (cfg : Config) (step : ℕ) (max2D : List ℚ)
    (extraMask : Option (List Bool)) (st : Store) : List Bool :=
  let culls0 := st.opacities.map (fun o => decide (nm.sigmoid o < cfg.cullAlphaThresh))
  let culls1 := match extraMask with
    | some em => List.zipWith (fun a b => a || b) culls0 em
    | none => culls0
  if cfg.refineEvery * cfg.resetAlphaEvery < step then
    let toobigs0 := st.scales.map (fun s => decide (cfg.cullScaleThresh < expMax3 nm s))
    let toobigs := if step < cfg.stopScreenSizeAt then
        List.zipWith (fun a b => a || b) toobigs0
          (max2D.map (fun x => decide (cfg.cullScreenSize < x)))
      else toobigs0
    List.zipWith (fun a b => a || b) culls1 toobigs
  else culls1

/-- Older-variant cull_gaussians: compact every array by the complement of
the older-variant mask. -/
def cullGaussiansOldVariant (nm : Nm) (cfg : Config) (step : ℕ) (max2D : List ℚ)
    (extraMask : Option (List Bool)) (st : Store) : Store × List Bool :=
  let culls := cullMaskOldVariant nm cfg step max2D extraMask st
  (⟨keepNot culls st.means, keepNot culls st.scales, keepNot culls st.quats,
    keepNot culls st.colorsAll, keepNot culls st.opacities⟩, culls)

/-! ## Splitting and duplication -/

/-- Shrink one log-scale row by the fixed split factor 1.6:
log(exp(s) / 1.6) per axis. -/
def shrinkScale (nm : Nm) (s : ℚ × ℚ × ℚ) : ℚ × ℚ × ℚ :=
  (nm.log (nm.exp s.1 / (8 / 5)), nm.log (nm.exp s.2.1 / (8 / 5)),
   nm.log (nm.exp s.2.2 / (8 / 5)))

/-- Output of split_gaussians: the samps * k new child rows per attribute
plus the in-place updated parent scales. -/
structure SplitOut where
  means : List ℚ
  colors : List ℚ
  opacities : List ℚ
  quats : List ℚ
  scales : List (ℚ × ℚ × ℚ)
  parentScales : List (ℚ × ℚ × ℚ)
deriving DecidableEq

/-- Model of split_gaussians (older variant lines 751-784, inherited by the
current variant): tile the selected rows samps times, offset the tiled means
by external gaussian samples (rotated and scaled in the source; additive
payload here), shrink both the child and the in-place parent scales by 1.6,
and copy colors, opacities and quats unchanged. -/
def splitGaussians (nm : Nm) (offsets : ℕ → ℚ) (st : Store) (mask : List Bool)
    (samps : ℕ) : SplitOut :=
  ⟨addOffsets offsets 0 (tile samps (sel mask st.means)),
   tile samps (sel mask st.colorsAll),
   tile samps (sel mask st.opacities),
   tile samps (sel mask st.quats),
   tile samps ((sel mask st.scales).map (shrinkScale nm)),
   applyMasked (shrinkScale nm) st.scales mask⟩

/-- Output of dup_gaussians: the selected rows, copied verbatim. -/
structure DupOut where
  means : List ℚ
  colors : List ℚ
  opacities : List ℚ
  quats : List ℚ
  scales : List (ℚ × ℚ × ℚ)
deriving DecidableEq

/-- Model of dup_gaussians: select each attribute by the duplication mask. -/
def dupGaussians (st : Store) (mask : List Bool) : DupOut :=
  ⟨sel mask st.means, sel mask st.colorsAll, sel mask st.opacities,
   sel mask st.quats, sel mask st.scales⟩

/-! ## Densification (shared core of refinement_after in both variants) -/

/-- Result of one densification: the grown store and optimizers, the
zero-extended max-2D-size statistic, and the split and duplicate masks as the
code computed them. -/
structure DensifyOut where
  store : Store
  opts : Opts
  max2D : List ℚ
  splits : List Bool
  dups : List Bool
deriving DecidableEq

/-- Model of the densification block of refinement_after
(current variant lines 406-455; older variant lines 606-668):
1. average gradient mask: xys_grad_norm / vis_counts * 0.5 * max(last_size)
   compared to densify_grad_thresh;
2. split mask: exp-scale max above densify_size_thresh, OR-ed with the
   screen-size criterion while step < stop_screen_size_at, AND-ed with the
   gradient mask;
3. split_gaussians (which also shrinks the parent scales in place);
4. duplicate mask: exp-scale max at most densify_size_thresh — evaluated on
   the scales AFTER the in-place parent shrink — AND-ed with the gradient mask;
5. append split children then duplicates to every attribute array, extend
   max_2Dsize with zeros, and grow every optimizer by dup_in_optim
   (n-fold for split indices, 1-fold for duplicate indices). -/
def highGradsMask (cfg : Config) (lastSize : ℚ) (gradNorm visCounts : List ℚ) : List Bool :=
  List.zipWith (fun g c => decide (cfg.densifyGradThresh < g / c * (1 / 2) * lastSize))
    gradNorm visCounts

/-- Split mask of refinement_after: exp-scale max above densify_size_thresh,
OR-ed with the screen-size criterion while step < stop_screen_size_at,
AND-ed with the high-gradient mask. -/
def splitsMaskOf (nm : Nm) (cfg : Config) (step : ℕ) (max2D : List ℚ)
    (scales : List (ℚ × ℚ × ℚ)) (highGrads : List Bool) : List Bool :=
  let splits0 := scales.map (fun s => decide (cfg.densifySizeThresh < expMax3 nm s))
  let splits1 := if step < cfg.stopScreenSizeAt then
      List.zipWith (fun a b => a || b) splits0
        (max2D.map (fun x => decide (cfg.splitScreenSize < x)))
    else splits0
  List.zipWith (fun a b => a && b) splits1 highGrads

/-- Duplicate mask of refinement_after: exp-scale max at most
densify_size_thresh AND-ed with the high-gradient mask; the source evaluates
it on self.scales, which split_gaussians has already shrunk in place at the
split indices. -/
def dupsMaskOf (nm : Nm) (cfg : Config) (scalesMut : List (ℚ × ℚ × ℚ))
    (highGrads : List Bool) : List Bool :=
  List.zipWith (fun a b => a && b)
    (scalesMut.map (fun s => decide (expMax3 nm s ≤ cfg.densifySizeThresh)))
    highGrads

def refinementDensify (nm : Nm) (cfg : Config) (step : ℕ) (lastSize : ℚ)
    (offsets : ℕ → ℚ) (gradNorm visCounts max2D : List ℚ)
    (st : Store) (o : Opts) (samps : ℕ) : DensifyOut :=
  let highGrads := highGradsMask cfg lastSize gradNorm visCounts
  let splits := splitsMaskOf nm cfg step max2D st.scales highGrads
  let so := splitGaussians nm offsets st splits samps
  let scalesMut := so.parentScales
  let dups := dupsMaskOf nm cfg scalesMut highGrads
  let dg := dupGaussians { st with scales := scalesMut } dups
  let st2 : Store :=
    ⟨st.means ++ so.means ++ dg.means,
     scalesMut ++ so.scales ++ dg.scales,
     st.quats ++ so.quats ++ dg.quats,
     st.colorsAll ++ so.colors ++ dg.colors,
     st.opacities ++ so.opacities ++ dg.opacities⟩
  let o1 := dupInAllOptim o (countTrue splits) samps
  let o2 := dupInAllOptim o1 (countTrue dups) 1
  let max2D2 := max2D ++ List.replicate so.scales.length 0 ++ List.replicate dg.scales.length 0
  ⟨st2, o2, max2D2, splits, dups⟩

/-! ## Refinement pass, CURRENT variant (ll_gaussian_splatting.py 397-482) -/

/-- Densification step on the full model state (reads the accumulated
statistics, asserted non-None by the source at this point). -/
def densifyStep (nm : Nm) (cfg : Config) (step : ℕ) (lastSize : ℚ)
    (offsets : ℕ → ℚ) (m : Model) : Model :=
  let r := refinementDensify nm cfg step lastSize offsets
    (m.xysGradNorm.getD []) (m.visCounts.getD []) (m.max2Dsize.getD [])
    m.store m.opts cfg.nSplitSamples
  { m with store := r.store, opts := r.opts, max2Dsize := some r.max2D }

/-- Cull step on the full model state: current-variant cull_gaussians followed
by remove_from_optim on every tracked group with the returned mask. -/
def cullStep (nm : Nm) (cfg : Config) (m : Model) : Model :=
  let r := cullGaussians nm cfg m.store
  { m with store := r.1, opts := removeFromAllOptim r.2 m.opts }

/-- Opacity reset of the current variant (lines 468-479): overwrite every
opacity logit with logit(0.15) and zero the moments of the opacity optimizer. -/
def opacityResetStep (nm : Nm) (m : Model) : Model :=
  { m with
    store := { m.store with opacities := m.store.opacities.map (fun _ => nm.logit (3 / 20)) },
    opts := { m.opts with opacity :=
      ⟨m.opts.opacity.expAvg.map (fun _ => 0), m.opts.opacity.expAvgSq.map (fun _ => 0)⟩ } }

/-- Clear the accumulated density-control statistics (end of every pass). -/
def clearStats (m : Model) : Model :=
  { m with xysGradNorm := none, visCounts := none, max2Dsize := none }

/-- Model of refinement_after in the CURRENT variant (lines 397-482):
no-op during warmup; densify while step < stop_split_at and the step is
outside the post-reset exclusion band; cull (unconditionally on
steps-since-growth) under the same band condition; reset opacities when the
steps-since-growth counter hits the reset phase; finally clear statistics. -/
def refinementAfter (nm : Nm) (cfg : Config) (numTrainData step : ℕ)
    (lastSize : ℚ) (offsets : ℕ → ℚ) (m : Model) : Model :=
  if step < cfg.warmupLength then m else
  let ri := cfg.resetAlphaEvery * cfg.refineEvery
  let m1 := if step < cfg.stopSplitAt ∧ numTrainData + cfg.refineEvery < step % ri then
      densifyStep nm cfg step lastSize offsets m
    else m
  let m2 := if numTrainData + cfg.refineEvery < step % ri then cullStep nm cfg m1 else m1
  let m3 := if m2.stepsSinceAdd % ri = cfg.refineEvery then opacityResetStep nm m2 else m2
  clearStats m3

/-! ## Incremental Growth Port, CURRENT variant
(add_deprojected_means, ll_gaussian_splatting.py 311-371) -/

/-- Zeroth-coefficient color transform RGB2SH: (rgb - 0.5) / C0. -/
def rgb2sh (c : ℚ) : ℚ := (c - 1 / 2) / (0.28209479177387814 : ℚ)

/-- Fixed isotropic log-scale row assigned to every grown point in the current
variant: avg_dist is the constant 1/3, appended scale is log(1/3) per axis. -/
def grownScaleRow (nm : Nm) : ℚ × ℚ × ℚ :=
  (nm.log (1 / 3), nm.log (1 / 3), nm.log (1 / 3))

/-- Model of add_deprojected_means in the CURRENT variant: given externally
deprojected points and matching colors, when the list is nonempty it
normalizes colors to [0,1] (dividing by 255 when any exceeds 1), appends one
row per point to every attribute array (fresh random quaternions from qgen,
log(1/3) isotropic scales, logit(0.25) opacities, RGB2SH zeroth color
coefficients), clears the density-control statistics, extends every tracked
optimizer with add_new_params_to_optimizer, and zeroes the steps-since-growth
counter.  An empty input leaves the entire state untouched. -/
def addDeprojectedMeans (nm : Nm) (qgen : ℕ → ℚ) (depro cols : List ℚ)
    (m : Model) : Model :=
  if 0 < depro.length then
    let numpts := depro.length
    let colsN := if 1 < listMax cols then cols.map (fun c => c / 255) else cols
    let st := m.store
    let st2 : Store :=
      ⟨st.means ++ depro,
       st.scales ++ (List.range numpts).map (fun _ => grownScaleRow nm),
       st.quats ++ (List.range numpts).map qgen,
       st.colorsAll ++ colsN.map rgb2sh,
       st.opacities ++ List.replicate numpts (nm.logit (1 / 4))⟩
    let o := m.opts
    let o2 : Opts :=
      ⟨addNewParamsToOptimizer o.xyz numpts, addNewParamsToOptimizer o.color numpts,
       addNewParamsToOptimizer o.opacity numpts, addNewParamsToOptimizer o.scaling numpts,
       addNewParamsToOptimizer o.rotation numpts⟩
    { store := st2, opts := o2, xysGradNorm := none, visCounts := none,
      max2Dsize := none, stepsSinceAdd := 0 }
  else m

/-! ## Refinement pass, OLDER variant (ll_gaussian_splatting_old.py 590-711) -/

/-- Opacity reset of the older variant (lines 695-707): clamp every opacity
logit to at most logit(2 * cull_alpha_thresh) and zero the opacity moments. -/
def opacityResetStepOldVariant (nm : Nm) (cfg : Config) (m : Model) : Model :=
  let clampTo := nm.logit (2 * cfg.cullAlphaThresh)
  { m with
    store := { m.store with opacities := m.store.opacities.map (fun o => min o clampTo) },
    opts := { m.opts with opacity :=
      ⟨m.opts.opacity.expAvg.map (fun _ => 0), m.opts.opacity.expAvgSq.map (fun _ => 0)⟩ } }

/-- Model of refinement_after in the OLDER variant: no-op while
step <= warmup_length; densify under the same window as the current variant,
then (only when 5500 <= steps_since_add < 10000 and the post-bundle-adjustment
flag postBA is set) cull with the split parents folded into the cull mask;
in the post-densification regime (step >= stop_split_at with
continue_cull_post_densification) cull under the same steps-since-add window;
clamp-reset opacities at the reset phase; clear statistics. -/
def refinementAfterOldVariant (nm : Nm) (cfg : Config) (numTrainData step : ℕ)
    (lastSize : ℚ) (offsets : ℕ → ℚ) (postBA : Bool) (m : Model) : Model :=
  if step ≤ cfg.warmupLength then m else
  let ri := cfg.resetAlphaEvery * cfg.refineEvery
  let cullWindow := 5500 ≤ m.stepsSinceAdd ∧ postBA = true ∧ m.stepsSinceAdd < 10000
  let m1 :=
    if step < cfg.stopSplitAt ∧ numTrainData + cfg.refineEvery < step % ri then
      let r := refinementDensify nm cfg step lastSize offsets
        (m.xysGradNorm.getD []) (m.visCounts.getD []) (m.max2Dsize.getD [])
        m.store m.opts cfg.nSplitSamples
      let mA := { m with store := r.store, opts := r.opts, max2Dsize := some r.max2D }
      if cullWindow then
        let splitsMask := r.splits ++
          List.replicate (cfg.nSplitSamples * countTrue r.splits + countTrue r.dups) false
        let c := cullGaussiansOldVariant nm cfg step r.max2D (some splitsMask) r.store
        { mA with store := c.1, opts := removeFromAllOptim c.2 r.opts }
      else mA
    else if cfg.stopSplitAt ≤ step ∧ cfg.continueCullPostDensification = true then
      if cullWindow then
        let c := cullGaussiansOldVariant nm cfg step (m.max2Dsize.getD []) none m.store
        { m with store := c.1, opts := removeFromAllOptim c.2 m.opts }
      else m
    else m
  let m3 := if step < cfg.stopSplitAt ∧ step % ri = cfg.refineEvery then
      opacityResetStepOldVariant nm cfg m1
    else m1
  clearStats m3

/-! ## Multi-scale relevancy query (get_max_across, current variant 1271-1331,
older variant 1596-1658; both have identical selection logic) -/

/-- The fixed candidate scale ladder torch.linspace(0.0, 1.5, 30):
thirty evenly spaced scales over the bounded range from 0 to 1.5. -/
def scalesLadder : List ℚ := (List.range 30).map (fun i => (i : ℚ) * (3 / 2) / 29)

/-- One update of the per-phrase best-scale accumulator: the source keeps
(n_phrases_maxs[j], n_phrases_sims[j]) and replaces BOTH with the current
scale and the current whole relevancy map whenever the map-wide maximum
pos_prob.max() strictly exceeds the stored map-wide maximum. -/
def getMaxStep (rel : ℚ → List ℚ) (acc : Option (ℚ × List ℚ)) (s : ℚ) :
    Option (ℚ × List ℚ) :=
  match acc with
  | none => some (s, rel s)
  | some (bs, bp) => if listMax bp < listMax (rel s) then some (s, rel s) else some (bs, bp)

/-- Model of get_max_across for one query phrase: rel s is the per-pixel
relevancy map obtained by decoding the rasterized hash features at scale s
and scoring them against the phrase (an external learned function, passed in
abstractly); the source folds the accumulator update over the scale ladder
and returns the retained scale and map. -/
def getMaxAcross (rel : ℚ → List ℚ) (scales : List ℚ) : Option (ℚ × List ℚ) :=
  scales.foldl (getMaxStep rel) none

/-! ## Crop-box early-return branch of get_outputs
(current variant lines 837-847 versus 897-901) -/

def unboundLocalMsg : String := "UnboundLocalError: local variable background referenced before assignment"

/-- Model of the head of get_outputs in the current variant.  The name
background is a local variable of get_outputs whose only assignments sit at
lines 899 and 901, AFTER the crop-box block at lines 842-845; under local
variable scoping the read of background inside the crop-empty early return at
line 845 therefore raises UnboundLocalError.  The local is modelled as an
Option that is still none at that program point; a defined value would
produce the background-filled h*w image. -/
def getOutputsCropBranch (cropBoxSet training : Bool) (cropSelectedCount h w : ℕ) :
    Except String (Option (List ℚ)) :=
  let background : Option ℚ := none
  if cropBoxSet = true ∧ training = false then
    if cropSelectedCount = 0 then
      match background with
      | some b => Except.ok (some (List.replicate (h * w) b))
      | none => Except.error unboundLocalMsg
    else Except.ok none
  else Except.ok none

/-- Modelled from the spec: the degenerate-crop contract of section 7 — a
crop mask selecting zero points outside training yields a well-defined
background-filled render rather than an error.  The same behavior is actually
implemented by the crop-empty branch of project_gaussians (lines 567-570),
which returns an image filled with the constant 0.5. -/
def getOutputsCropBranchPerSpec (cropBoxSet training : Bool)
    (cropSelectedCount h w : ℕ) (backColor : ℚ) : Except String (Option (List ℚ)) :=
  if cropBoxSet = true ∧ training = false then
    if cropSelectedCount = 0 then Except.ok (some (List.replicate (h * w) backColor))
    else Except.ok none
  else Except.ok none

/-! ## random_quat_tensor over the reals (claim C9 is stated in exact-real
arithmetic) -/

/-- One row of random_quat_tensor in the CURRENT variant
(ll_gaussian_splatting.py lines 59-74) as a function of the three uniform
draws: note the FOURTH component repeats sqrt(u) * sin(2 pi w) instead of
using the cosine. -/
noncomputable def randomQuatRow (u v w : ℝ) : ℝ × ℝ × ℝ × ℝ :=
  (Real.sqrt (1 - u) * Real.sin (2 * Real.pi * v),
   Real.sqrt (1 - u) * Real.cos (2 * Real.pi * v),
   Real.sqrt u * Real.sin (2 * Real.pi * w),
   Real.sqrt u * Real.sin (2 * Real.pi * w))

/-- One row of random_quat_tensor in the OLDER variant (lines 70-85), the
standard uniform unit-quaternion construction with cosine in the fourth
component. -/
noncomputable def randomQuatRowOldVariant (u v w : ℝ) : ℝ × ℝ × ℝ × ℝ :=
  (Real.sqrt (1 - u) * Real.sin (2 * Real.pi * v),
   Real.sqrt (1 - u) * Real.cos (2 * Real.pi * v),
   Real.sqrt u * Real.sin (2 * Real.pi * w),
   Real.sqrt u * Real.cos (2 * Real.pi * w))

/-- Squared euclidean norm of a 4-component quaternion. -/
noncomputable def quatNormSq (q : ℝ × ℝ × ℝ × ℝ) : ℝ :=
  q.1 ^ 2 + q.2.1 ^ 2 + q.2.2.1 ^ 2 + q.2.2.2 ^ 2

/-! ## Concrete instantiations used by closed witnesses and counterexamples.
The abstract activations are instantiated by rational functions that agree
with the real activations in the threshold comparisons actually sampled:
sigmoid 0 = 1/2 exactly and sigmoid of a very negative logit is below 1/10;
exp of a nonnegative input is 7.389 (the value of exp 2, above the cull-scale
threshold 2.9) and exp of a negative input is 1/400 (close to exp(-6), below
the densify size threshold 1/100); log of a value below 1 is -6 and otherwise
1.5 (close to log 4.6). -/

def nmEx : Nm where
  sigmoid := fun o => if o < 0 then 1 / 20 else 1 / 2
  exp := fun x => if x < 0 then 1 / 400 else 7389 / 1000
  log := fun q => if q < 1 then -6 else 3 / 2
  logit := fun q => q

/-- A one-point aligned model used by several closed instances: a single
opaque primitive with log-scale 2 on every axis. -/
def oneBig : Model where
  store := ⟨[5], [(2, 2, 2)], [7], [3], [0]⟩
  opts := ⟨⟨[0], [0]⟩, ⟨[0], [0]⟩, ⟨[0], [0]⟩, ⟨[0], [0]⟩, ⟨[0], [0]⟩⟩
  xysGradNorm := some [1]
  visCounts := some [1]
  max2Dsize := some [0]
  stepsSinceAdd := 0

/-- A one-point aligned model holding a single nearly transparent primitive
(opacity logit -5) right after a growth event (steps_since_add = 0). -/
def oneFresh : Model where
  store := ⟨[5], [(0, 0, 0)], [7], [3], [-5]⟩
  opts := ⟨⟨[0], [0]⟩, ⟨[0], [0]⟩, ⟨[0], [0]⟩, ⟨[0], [0]⟩, ⟨[0], [0]⟩⟩
  xysGradNorm := some [0]
  visCounts := some [1]
  max2Dsize := some [0]
  stepsSinceAdd := 0

/-! ## Length lemmas for the densification masks and operations -/

theorem highGradsMask_length (cfg : Config) (lastSize : ℚ) (gn vc : List ℚ) :
    (highGradsMask cfg lastSize gn vc).length = min gn.length vc.length := by
  simp [highGradsMask]

theorem splitsMaskOf_length (nm : Nm) (cfg : Config) (step : ℕ) (max2D : List ℚ)
    (scales : List (ℚ × ℚ × ℚ)) (hg : List Bool)
    (hm : max2D.length = scales.length) :
    (splitsMaskOf nm cfg step max2D scales hg).length = min scales.length hg.length := by
  unfold splitsMaskOf
  split <;> simp [hm]

theorem dupsMaskOf_length (nm : Nm) (cfg : Config) (scalesMut : List (ℚ × ℚ × ℚ))
    (hg : List Bool) :
    (dupsMaskOf nm cfg scalesMut hg).length = min scalesMut.length hg.length := by
  simp [dupsMaskOf]

theorem dupInOptim_lengths (a : AdamState) (k n : ℕ) :
    (dupInOptim a k n).expAvg.length = a.expAvg.length + n * k ∧
    (dupInOptim a k n).expAvgSq.length = a.expAvgSq.length + n * k := by
  simp [dupInOptim]

/-! ## Alignment preservation through each structural operation -/

theorem densify_aligned (nm : Nm) (cfg : Config) (step : ℕ) (lastSize : ℚ)
    (offsets : ℕ → ℚ) (gn vc m2 : List ℚ) (st : Store) (o : Opts) (samps : ℕ)
    (hA : alignedModel st o) (hg : gn.length = st.means.length)
    (hv : vc.length = st.means.length) (hm : m2.length = st.means.length) :
    alignedModel (refinementDensify nm cfg step lastSize offsets gn vc m2 st o samps).store
      (refinementDensify nm cfg step lastSize offsets gn vc m2 st o samps).opts := by
  obtain ⟨⟨hsc, hq, hcl, hop⟩, ⟨hx1, hx2⟩, ⟨hc1, hc2⟩, ⟨ho1, ho2⟩, ⟨hs1, hs2⟩, ⟨hr1, hr2⟩⟩ := hA
  have hhg : (highGradsMask cfg lastSize gn vc).length = st.means.length := by
    rw [highGradsMask_length, hg, hv]; exact Nat.min_self _
  have hsp : (splitsMaskOf nm cfg step m2 st.scales (highGradsMask cfg lastSize gn vc)).length
      = st.means.length := by
    rw [splitsMaskOf_length nm cfg step m2 st.scales _ (hm.trans hsc.symm), hsc, hhg]
    exact Nat.min_self _
  have hdp : (dupsMaskOf nm cfg
      (applyMasked (shrinkScale nm) st.scales
        (splitsMaskOf nm cfg step m2 st.scales (highGradsMask cfg lastSize gn vc)))
      (highGradsMask cfg lastSize gn vc)).length = st.means.length := by
    rw [dupsMaskOf_length, applyMasked_length, hsc, hhg]
    exact Nat.min_self _
  simp only [refinementDensify, splitGaussians, dupGaussians, dupInAllOptim, dupInOptim,
    alignedModel, alignedStore, adamAligned]
  generalize hSP : splitsMaskOf nm cfg step m2 st.scales (highGradsMask cfg lastSize gn vc) = sp at *
  generalize hDP : dupsMaskOf nm cfg (applyMasked (shrinkScale nm) st.scales sp)
    (highGradsMask cfg lastSize gn vc) = dp at *
  clear hhg
  simp only [List.length_append, tile_length, addOffsets_length, List.length_map,
    List.length_replicate, applyMasked_length]
  rw [sel_length sp st.means hsp, sel_length sp st.scales (hsp.trans hsc.symm),
    sel_length sp st.quats (hsp.trans hq.symm), sel_length sp st.colorsAll (hsp.trans hcl.symm),
    sel_length sp st.opacities (hsp.trans hop.symm),
    sel_length dp st.means hdp,
    sel_length dp (applyMasked (shrinkScale nm) st.scales sp)
      (by rw [applyMasked_length]; exact hdp.trans hsc.symm),
    sel_length dp st.quats (hdp.trans hq.symm), sel_length dp st.colorsAll (hdp.trans hcl.symm),
    sel_length dp st.opacities (hdp.trans hop.symm)]
  simp only [hsc, hq, hcl, hop, hx1, hx2, hc1, hc2, ho1, ho2, hs1, hs2, hr1, hr2, Nat.one_mul]
  refine ⟨⟨?_, ?_, ?_, ?_⟩, ⟨?_, ?_⟩, ⟨?_, ?_⟩, ⟨?_, ?_⟩, ⟨?_, ?_⟩, ⟨?_, ?_⟩⟩ <;> ring_nf

theorem cullStep_aligned (nm : Nm) (cfg : Config) (m : Model)
    (hA : alignedModel m.store m.opts) :
    alignedModel (cullStep nm cfg m).store (cullStep nm cfg m).opts := by
  obtain ⟨⟨hsc, hq, hcl, hop⟩, ⟨hx1, hx2⟩, ⟨hc1, hc2⟩, ⟨ho1, ho2⟩, ⟨hs1, hs2⟩, ⟨hr1, hr2⟩⟩ := hA
  have hmk : (cullMask nm cfg m.store).length = m.store.means.length := by
    rw [cullMask]; rw [List.length_map]; exact hop
  simp only [cullStep, cullGaussians, removeFromAllOptim, removeFromOptim,
    alignedModel, alignedStore, adamAligned]
  generalize hM : cullMask nm cfg m.store = mask at *
  rw [keepNot_length mask m.store.means hmk,
    keepNot_length mask m.store.scales (hmk.trans hsc.symm),
    keepNot_length mask m.store.quats (hmk.trans hq.symm),
    keepNot_length mask m.store.colorsAll (hmk.trans hcl.symm),
    keepNot_length mask m.store.opacities (hmk.trans hop.symm),
    keepNot_length mask m.opts.xyz.expAvg (hmk.trans hx1.symm),
    keepNot_length mask m.opts.xyz.expAvgSq (hmk.trans hx2.symm),
    keepNot_length mask m.opts.color.expAvg (hmk.trans hc1.symm),
    keepNot_length mask m.opts.color.expAvgSq (hmk.trans hc2.symm),
    keepNot_length mask m.opts.opacity.expAvg (hmk.trans ho1.symm),
    keepNot_length mask m.opts.opacity.expAvgSq (hmk.trans ho2.symm),
    keepNot_length mask m.opts.scaling.expAvg (hmk.trans hs1.symm),
    keepNot_length mask m.opts.scaling.expAvgSq (hmk.trans hs2.symm),
    keepNot_length mask m.opts.rotation.expAvg (hmk.trans hr1.symm),
    keepNot_length mask m.opts.rotation.expAvgSq (hmk.trans hr2.symm)]
  simp only [hsc, hq, hcl, hop, hx1, hx2, hc1, hc2, ho1, ho2, hs1, hs2, hr1, hr2]
  refine ⟨⟨?_, ?_, ?_, ?_⟩, ⟨?_, ?_⟩, ⟨?_, ?_⟩, ⟨?_, ?_⟩, ⟨?_, ?_⟩, ⟨?_, ?_⟩⟩ <;> trivial

theorem opacityResetStep_aligned (nm : Nm) (m : Model)
    (hA : alignedModel m.store m.opts) :
    alignedModel (opacityResetStep nm m).store (opacityResetStep nm m).opts := by
  obtain ⟨⟨hsc, hq, hcl, hop⟩, ⟨hx1, hx2⟩, ⟨hc1, hc2⟩, ⟨ho1, ho2⟩, ⟨hs1, hs2⟩, ⟨hr1, hr2⟩⟩ := hA
  simp only [opacityResetStep, alignedModel, alignedStore, adamAligned, List.length_map]
  exact ⟨⟨hsc, hq, hcl, hop⟩, ⟨hx1, hx2⟩, ⟨hc1, hc2⟩, ⟨ho1, ho2⟩, ⟨hs1, hs2⟩, ⟨hr1, hr2⟩⟩

theorem clearStats_aligned (m : Model) (hA : alignedModel m.store m.opts) :
    alignedModel (clearStats m).store (clearStats m).opts := hA

theorem densifyStep_aligned (nm : Nm) (cfg : Config) (step : ℕ) (lastSize : ℚ)
    (offsets : ℕ → ℚ) (m : Model) (gn vc m2 : List ℚ)
    (hA : alignedModel m.store m.opts)
    (hgn : m.xysGradNorm = some gn) (hvc : m.visCounts = some vc)
    (hm2 : m.max2Dsize = some m2)
    (hg : gn.length = m.store.means.length) (hv : vc.length = m.store.means.length)
    (hm : m2.length = m.store.means.length) :
    alignedModel (densifyStep nm cfg step lastSize offsets m).store
      (densifyStep nm cfg step lastSize offsets m).opts := by
  simp only [densifyStep, hgn, hvc, hm2, Option.getD_some]
  exact densify_aligned nm cfg step lastSize offsets gn vc m2 m.store m.opts
    cfg.nSplitSamples hA hg hv hm

theorem refinementAfter_aligned (nm : Nm) (cfg : Config) (numTrainData step : ℕ)
    (lastSize : ℚ) (offsets : ℕ → ℚ) (m : Model) (gn vc m2 : List ℚ)
    (hA : alignedModel m.store m.opts)
    (hgn : m.xysGradNorm = some gn) (hvc : m.visCounts = some vc)
    (hm2 : m.max2Dsize = some m2)
    (hg : gn.length = m.store.means.length) (hv : vc.length = m.store.means.length)
    (hm : m2.length = m.store.means.length) :
    alignedModel (refinementAfter nm cfg numTrainData step lastSize offsets m).store
      (refinementAfter nm cfg numTrainData step lastSize offsets m).opts := by
  unfold refinementAfter
  split
  case isTrue => exact hA
  case isFalse =>
    have h1 : ∀ mm : Model, alignedModel mm.store mm.opts →
        alignedModel (if numTrainData + cfg.refineEvery <
            step % (cfg.resetAlphaEvery * cfg.refineEvery) then
          cullStep nm cfg mm else mm).store
          ((if numTrainData + cfg.refineEvery <
            step % (cfg.resetAlphaEvery * cfg.refineEvery) then
          cullStep nm cfg mm else mm)).opts := by
      intro mm hmm
      split
      case isTrue => exact cullStep_aligned nm cfg mm hmm
      case isFalse => exact hmm
    have h2 : ∀ mm : Model, alignedModel mm.store mm.opts →
        alignedModel (if mm.stepsSinceAdd % (cfg.resetAlphaEvery * cfg.refineEvery) =
            cfg.refineEvery then opacityResetStep nm mm else mm).store
          ((if mm.stepsSinceAdd % (cfg.resetAlphaEvery * cfg.refineEvery) =
            cfg.refineEvery then opacityResetStep nm mm else mm)).opts := by
      intro mm hmm
      split
      case isTrue => exact opacityResetStep_aligned nm mm hmm
      case isFalse => exact hmm
    apply clearStats_aligned
    apply h2
    apply h1
    split
    case isTrue =>
      exact densifyStep_aligned nm cfg step lastSize offsets m gn vc m2 hA hgn hvc hm2 hg hv hm
    case isFalse => exact hA

theorem addDeprojectedMeans_aligned (nm : Nm) (qgen : ℕ → ℚ) (depro cols : List ℚ)
    (m : Model) (hA : alignedModel m.store m.opts) (hc : cols.length = depro.length) :
    alignedModel (addDeprojectedMeans nm qgen depro cols m).store
      (addDeprojectedMeans nm qgen depro cols m).opts := by
  obtain ⟨⟨hsc, hq, hcl, hop⟩, ⟨hx1, hx2⟩, ⟨hc1, hc2⟩, ⟨ho1, ho2⟩, ⟨hs1, hs2⟩, ⟨hr1, hr2⟩⟩ := hA
  unfold addDeprojectedMeans
  split
  case isFalse => exact ⟨⟨hsc, hq, hcl, hop⟩, ⟨hx1, hx2⟩, ⟨hc1, hc2⟩, ⟨ho1, ho2⟩,
    ⟨hs1, hs2⟩, ⟨hr1, hr2⟩⟩
  case isTrue =>
    have hcn : (if 1 < listMax cols then cols.map (fun c => c / 255) else cols).length
        = depro.length := by
      split <;> simp [hc]
    simp only [alignedModel, alignedStore, adamAligned, addNewParamsToOptimizer,
      List.length_append, List.length_map, List.length_range, List.length_replicate, hcn]
    simp only [hsc, hq, hcl, hop, hx1, hx2, hc1, hc2, ho1, ho2, hs1, hs2, hr1, hr2]
    refine ⟨⟨?_, ?_, ?_, ?_⟩, ⟨?_, ?_⟩, ⟨?_, ?_⟩, ⟨?_, ?_⟩, ⟨?_, ?_⟩, ⟨?_, ?_⟩⟩ <;> trivial

/-! ## Further helper lemmas for the claim theorems -/

theorem drop_len_append (xs ys : List α) : (xs ++ ys).drop xs.length = ys := by
  induction xs with
  | nil => simp
  | cons a t ih => simp [ih]

theorem zipWith_and_true : ∀ (xs ys : List Bool) (i : ℕ),
    (List.zipWith (fun a b => a && b) xs ys).getD i false = true →
    xs.getD i false = true ∧ ys.getD i false = true
  | [], _, _, h => by simp [List.getD] at h
  | _ :: _, [], _, h => by simp [List.getD] at h
  | x :: xs, y :: ys, 0, h => by simpa using h
  | x :: xs, y :: ys, i + 1, h => zipWith_and_true xs ys i (by simpa using h)

theorem map_getD_true (p : α → Bool) (d : α) : ∀ (l : List α) (i : ℕ),
    (l.map p).getD i false = true → p (l.getD i d) = true
  | [], i, h => by simp [List.getD] at h
  | x :: xs, 0, h => by simpa using h
  | x :: xs, i + 1, h => map_getD_true p d xs i (by simpa using h)

theorem getMaxStep_none (rel : ℚ → List ℚ) (s : ℚ) :
    getMaxStep rel none s = some (s, rel s) := rfl

theorem getMaxStep_some (rel : ℚ → List ℚ) (s bs : ℚ) (bp : List ℚ) :
    getMaxStep rel (some (bs, bp)) s =
      if listMax bp < listMax (rel s) then some (s, rel s) else some (bs, bp) := rfl

theorem getMaxAcross_go_val (rel : ℚ → List ℚ) :
    ∀ (l : List ℚ) (acc : Option (ℚ × List ℚ)) (x : ℚ × List ℚ),
      (∀ y : ℚ × List ℚ, acc = some y → y.2 = rel y.1) →
      l.foldl (getMaxStep rel) acc = some x → x.2 = rel x.1
  | [], acc, x, hinv, h => by simp at h; exact hinv x (by simp [h])
  | s :: t, acc, x, hinv, h => by
      simp only [List.foldl_cons] at h
      refine getMaxAcross_go_val rel t (getMaxStep rel acc s) x ?_ h
      intro y hy
      cases acc with
      | none =>
        rw [getMaxStep_none] at hy
        simp at hy
        subst hy
        rfl
      | some a =>
        obtain ⟨bs, bp⟩ := a
        rw [getMaxStep_some] at hy
        by_cases hlt : listMax bp < listMax (rel s)
        · rw [if_pos hlt] at hy
          simp at hy
          subst hy
          rfl
        · rw [if_neg hlt] at hy
          simp at hy
          exact hinv y (by rw [hy])

theorem getMaxAcross_go_mem (rel : ℚ → List ℚ) :
    ∀ (l : List ℚ) (acc : Option (ℚ × List ℚ)) (x : ℚ × List ℚ),
      l.foldl (getMaxStep rel) acc = some x → acc = some x ∨ x.1 ∈ l
  | [], acc, x, h => by simp at h; exact Or.inl (by simp [h])
  | s :: t, acc, x, h => by
      simp only [List.foldl_cons] at h
      rcases getMaxAcross_go_mem rel t (getMaxStep rel acc s) x h with h1 | h1
      · cases acc with
        | none =>
          rw [getMaxStep_none] at h1
          simp at h1
          exact Or.inr (by rw [← h1]; simp)
        | some a =>
          obtain ⟨bs, bp⟩ := a
          rw [getMaxStep_some] at h1
          by_cases hlt : listMax bp < listMax (rel s)
          · rw [if_pos hlt] at h1
            simp at h1
            exact Or.inr (by rw [← h1]; simp)
          · rw [if_neg hlt] at h1
            exact Or.inl h1
      · exact Or.inr (List.mem_cons_of_mem s h1)

theorem getMaxAcross_go_mono (rel : ℚ → List ℚ) :
    ∀ (l : List ℚ) (acc : Option (ℚ × List ℚ)) (x y : ℚ × List ℚ),
      acc = some y → l.foldl (getMaxStep rel) acc = some x →
      listMax y.2 ≤ listMax x.2
  | [], acc, x, y, hy, h => by
      simp at h
      rw [hy] at h
      simp at h
      rw [h]
  | s :: t, acc, x, y, hy, h => by
      simp only [List.foldl_cons] at h
      rw [hy] at h
      obtain ⟨bs, bp⟩ := y
      by_cases hlt : listMax bp < listMax (rel s)
      · have hm := getMaxAcross_go_mono rel t (getMaxStep rel (some (bs, bp)) s) x (s, rel s)
          (by rw [getMaxStep_some, if_pos hlt]) h
        exact le_trans (le_of_lt hlt) hm
      · exact getMaxAcross_go_mono rel t (getMaxStep rel (some (bs, bp)) s) x (bs, bp)
          (by rw [getMaxStep_some, if_neg hlt]) h

theorem getMaxAcross_go_dom (rel : ℚ → List ℚ) :
    ∀ (l : List ℚ) (acc : Option (ℚ × List ℚ)) (x : ℚ × List ℚ),
      l.foldl (getMaxStep rel) acc = some x →
      ∀ s ∈ l, listMax (rel s) ≤ listMax x.2
  | [], _, _, _, s, hs => by simp at hs
  | s0 :: t, acc, x, h, s, hs => by
      simp only [List.foldl_cons] at h
      rcases List.mem_cons.mp hs with h1 | h1
      · subst h1
        cases acc with
        | none =>
          rw [getMaxStep_none] at h
          exact getMaxAcross_go_mono rel t (some (s, rel s)) x (s, rel s) rfl h
        | some a =>
          obtain ⟨bs, bp⟩ := a
          rw [getMaxStep_some] at h
          by_cases hlt : listMax bp < listMax (rel s)
          · rw [if_pos hlt] at h
            exact getMaxAcross_go_mono rel t (some (s, rel s)) x (s, rel s) rfl h
          · rw [if_neg hlt] at h
            exact le_trans (le_of_not_lt hlt)
              (getMaxAcross_go_mono rel t (some (bs, bp)) x (bs, bp) rfl h)
      · exact getMaxAcross_go_dom rel t (getMaxStep rel acc s0) x h s h1

/-! ## Claim theorems -/

/-- C1: outside an in-progress structural mutation the five per-primitive
attribute arrays share one length N and, for every tracked optimizer, the exp_avg and
exp_avg_sq buffers also have length N; both population-changing entry points
of the current variant — the refinement pass (densify append followed by cull
compaction and opacity reset) and the incremental growth port — preserve this
alignment. -/
theorem C1_population_alignment (nm : Nm) (cfg : Config) (numTrainData step : ℕ)
    (lastSize : ℚ) (offsets : ℕ → ℚ) (qgen : ℕ → ℚ) (depro cols : List ℚ)
    (m : Model) (gn vc m2 : List ℚ)
    (hA : alignedModel m.store m.opts)
    (hgn : m.xysGradNorm = some gn) (hvc : m.visCounts = some vc)
    (hm2 : m.max2Dsize = some m2)
    (hg : gn.length = m.store.means.length) (hv : vc.length = m.store.means.length)
    (hm : m2.length = m.store.means.length) (hc : cols.length = depro.length) :
    alignedModel (refinementAfter nm cfg numTrainData step lastSize offsets m).store
      (refinementAfter nm cfg numTrainData step lastSize offsets m).opts ∧
    alignedModel (addDeprojectedMeans nm qgen depro cols m).store
      (addDeprojectedMeans nm qgen depro cols m).opts :=
  ⟨refinementAfter_aligned nm cfg numTrainData step lastSize offsets m gn vc m2
      hA hgn hvc hm2 hg hv hm,
   addDeprojectedMeans_aligned nm qgen depro cols m hA hc⟩

theorem C1_population_alignment_witness :
    alignedModel oneBig.store oneBig.opts ∧
    (alignedModel (refinementAfter nmEx defaultConfig 100 1200 100 (fun _ => 0) oneBig).store
        (refinementAfter nmEx defaultConfig 100 1200 100 (fun _ => 0) oneBig).opts ∧
      alignedModel (addDeprojectedMeans nmEx (fun _ => 9) [1, 2] [3, 4] oneBig).store
        (addDeprojectedMeans nmEx (fun _ => 9) [1, 2] [3, 4] oneBig).opts) :=
  ⟨by simp [alignedModel, alignedStore, adamAligned, oneBig],
   C1_population_alignment nmEx defaultConfig 100 1200 100 (fun _ => 0) (fun _ => 9)
     [1, 2] [3, 4] oneBig [1] [1] [0]
     (by simp [alignedModel, alignedStore, adamAligned, oneBig]) rfl rfl rfl rfl rfl rfl rfl⟩

/-- C2 (amended): in a densification pass whose split mask selects k points
with n split samples each, the Point Store grows by exactly k*n split children
plus the duplicated rows, and the k parent rows are NOT removed in the same
refinement pass in the current variant: the original rows all survive the
densification in place (the cull that follows uses only the opacity
criterion and no split-parent mask), so the net change from splitting alone
is +k*n, not +k*(n-1). -/
theorem C2_split_growth (nm : Nm) (cfg : Config) (step : ℕ) (lastSize : ℚ)
    (offsets : ℕ → ℚ) (gn vc m2 : List ℚ) (st : Store) (o : Opts) (samps : ℕ)
    (hA : alignedStore st) (hg : gn.length = st.means.length)
    (hv : vc.length = st.means.length) (hm : m2.length = st.means.length) :
    (refinementDensify nm cfg step lastSize offsets gn vc m2 st o samps).store.means.length
      = st.means.length
        + samps * countTrue (refinementDensify nm cfg step lastSize offsets gn vc m2 st o samps).splits
        + countTrue (refinementDensify nm cfg step lastSize offsets gn vc m2 st o samps).dups ∧
    (refinementDensify nm cfg step lastSize offsets gn vc m2 st o samps).store.means.take
        st.means.length = st.means := by
  obtain ⟨hsc, hq, hcl, hop⟩ := hA
  have hhg : (highGradsMask cfg lastSize gn vc).length = st.means.length := by
    rw [highGradsMask_length, hg, hv]; exact Nat.min_self _
  have hsp : (splitsMaskOf nm cfg step m2 st.scales (highGradsMask cfg lastSize gn vc)).length
      = st.means.length := by
    rw [splitsMaskOf_length nm cfg step m2 st.scales _ (hm.trans hsc.symm), hsc, hhg]
    exact Nat.min_self _
  have hdp : (dupsMaskOf nm cfg
      (applyMasked (shrinkScale nm) st.scales
        (splitsMaskOf nm cfg step m2 st.scales (highGradsMask cfg lastSize gn vc)))
      (highGradsMask cfg lastSize gn vc)).length = st.means.length := by
    rw [dupsMaskOf_length, applyMasked_length, hsc, hhg]
    exact Nat.min_self _
  simp only [refinementDensify, splitGaussians, dupGaussians]
  generalize hSP : splitsMaskOf nm cfg step m2 st.scales (highGradsMask cfg lastSize gn vc) = sp at *
  generalize hDP : dupsMaskOf nm cfg (applyMasked (shrinkScale nm) st.scales sp)
    (highGradsMask cfg lastSize gn vc) = dp at *
  constructor
  · simp only [List.length_append, tile_length, addOffsets_length]
    rw [sel_length sp st.means hsp, sel_length dp st.means hdp]
  · rw [List.append_assoc, take_len_append]

theorem C2_split_growth_witness :
    alignedStore oneBig.store ∧
    ((refinementDensify nmEx defaultConfig 5000 100 (fun _ => 0) [1] [1] [0]
        oneBig.store oneBig.opts 2).store.means.length
      = oneBig.store.means.length
        + 2 * countTrue (refinementDensify nmEx defaultConfig 5000 100 (fun _ => 0) [1] [1] [0]
            oneBig.store oneBig.opts 2).splits
        + countTrue (refinementDensify nmEx defaultConfig 5000 100 (fun _ => 0) [1] [1] [0]
            oneBig.store oneBig.opts 2).dups ∧
      (refinementDensify nmEx defaultConfig 5000 100 (fun _ => 0) [1] [1] [0]
        oneBig.store oneBig.opts 2).store.means.take oneBig.store.means.length
        = oneBig.store.means) :=
  ⟨by simp [alignedStore, oneBig],
   C2_split_growth nmEx defaultConfig 5000 100 (fun _ => 0) [1] [1] [0]
     oneBig.store oneBig.opts 2 (by simp [alignedStore, oneBig]) rfl rfl rfl⟩

/-- C2 counterexample: a full current-variant refinement pass on a one-point
store in which the split mask selects k = 1 point with n = 2 samples ends
with 3 points: the claimed net change +k*(n-1) = +1 (which would leave 2
points) is wrong because the parent row is not removed in the pass. -/
theorem C2_split_growth_counterexample :
    countTrue (refinementDensify nmEx defaultConfig 1200 100 (fun _ => 0) [1] [1] [0]
      oneBig.store oneBig.opts 2).splits = 1 ∧
    countTrue (refinementDensify nmEx defaultConfig 1200 100 (fun _ => 0) [1] [1] [0]
      oneBig.store oneBig.opts 2).dups = 0 ∧
    oneBig.store.means.length = 1 ∧
    (refinementAfter nmEx defaultConfig 100 1200 100 (fun _ => 0) oneBig).store.means.length = 3 ∧
    (3 : ℕ) ≠ 1 + 1 * (2 - 1) := by
  norm_num [refinementAfter, densifyStep, cullStep, opacityResetStep, clearStats,
    refinementDensify, splitGaussians, dupGaussians, dupInAllOptim, dupInOptim,
    removeFromAllOptim, removeFromOptim, cullGaussians, cullMask, highGradsMask,
    splitsMaskOf, dupsMaskOf, expMax3, shrinkScale, sel, keepNot, tile, applyMasked,
    addOffsets, countTrue, nmEx, defaultConfig, oneBig]

/-- C3 (amended): for each query phrase, get_max_across evaluates the
relevancy map at every scale of the fixed 30-rung ladder and returns the
whole map computed at the single scale whose IMAGE-WIDE maximum relevancy is
largest (the earliest such scale under ties), together with that scale.  The
selection is per-image, not made independently for every pixel: the returned
per-pixel scores are the scores of that one best scale. -/
theorem C3_best_scale (rel : ℚ → List ℚ) (bs : ℚ) (bp : List ℚ)
    (h : getMaxAcross rel scalesLadder = some (bs, bp)) :
    bp = rel bs ∧ bs ∈ scalesLadder ∧
    ∀ s ∈ scalesLadder, listMax (rel s) ≤ listMax bp := by
  simp only [getMaxAcross] at h
  refine ⟨?_, ?_, ?_⟩
  · exact getMaxAcross_go_val rel scalesLadder none (bs, bp)
      (fun y hy => absurd hy (by simp)) h
  · rcases getMaxAcross_go_mem rel scalesLadder none (bs, bp) h with h1 | h1
    · exact absurd h1 (by simp)
    · exact h1
  · intro s hs
    exact getMaxAcross_go_dom rel scalesLadder none (bs, bp) h s hs

theorem C3_best_scale_witness :
    getMaxAcross (fun _ => ([1] : List ℚ)) scalesLadder = some (0, [1]) ∧
    (([1] : List ℚ) = (fun _ => ([1] : List ℚ)) 0 ∧ (0 : ℚ) ∈ scalesLadder ∧
      ∀ s ∈ scalesLadder, listMax ((fun _ => ([1] : List ℚ)) s) ≤ listMax [1]) :=
  ⟨by norm_num [getMaxAcross, getMaxStep, scalesLadder, listMax, List.range_succ],
   C3_best_scale (fun _ => [1]) 0 [1]
     (by norm_num [getMaxAcross, getMaxStep, scalesLadder, listMax, List.range_succ])⟩

/-- A two-pixel relevancy family: at scale 0 the map is [9/10, 1/10], at
every other scale it is [4/5, 4/5]. -/
def relTwoPixel : ℚ → List ℚ := fun s => if s = 0 then [9 / 10, 1 / 10] else [4 / 5, 4 / 5]

/-- C3 counterexample: with relTwoPixel, get_max_across over the scale
ladder returns the whole scale-0 map (image-wide maximum 9/10), so pixel 1
receives relevancy 1/10 even though scale 3/2 — a ladder member — gives that
pixel 4/5: the returned value is NOT the per-pixel maximum across the
ladder. -/
theorem C3_best_scale_counterexample :
    getMaxAcross relTwoPixel scalesLadder = some (0, [9 / 10, 1 / 10]) ∧
    (3 / 2 : ℚ) ∈ scalesLadder ∧
    (relTwoPixel (3 / 2)).getD 1 0 = 4 / 5 ∧
    ([9 / 10, 1 / 10] : List ℚ).getD 1 0 = 1 / 10 ∧
    ¬((4 / 5 : ℚ) ≤ 1 / 10) := by
  refine ⟨?_, ?_, by norm_num [relTwoPixel], by norm_num, by norm_num⟩
  · norm_num [getMaxAcross, getMaxStep, scalesLadder, listMax, relTwoPixel, List.range_succ]
  · norm_num [scalesLadder, List.range_succ]

/-- C4 (amended): when rows are appended to the Point Store, every tracked
exp_avg and exp_avg_sq buffers of every tracked optimizer are extended by exactly the same
number of rows with all pre-existing rows unchanged; the appended rows are
zero for split/duplicated points (dup_in_optim) AND ALSO zero for points
appended through the Incremental Growth Port by add_new_params_to_optimizer
of the current variant — only the OLDER variant initializes growth-port
rows to the nonzero constant 0.4. -/
theorem C4_moment_extension (a b c : AdamState) (k n numNew : ℕ) :
    ((dupInOptim a k n).expAvg.take a.expAvg.length = a.expAvg ∧
     (dupInOptim a k n).expAvg.length = a.expAvg.length + n * k ∧
     (dupInOptim a k n).expAvg.drop a.expAvg.length = List.replicate (n * k) 0 ∧
     (dupInOptim a k n).expAvgSq.take a.expAvgSq.length = a.expAvgSq ∧
     (dupInOptim a k n).expAvgSq.drop a.expAvgSq.length = List.replicate (n * k) 0) ∧
    ((addNewParamsToOptimizer b numNew).expAvg.take b.expAvg.length = b.expAvg ∧
     (addNewParamsToOptimizer b numNew).expAvg.length = b.expAvg.length + numNew ∧
     (addNewParamsToOptimizer b numNew).expAvg.drop b.expAvg.length = List.replicate numNew 0 ∧
     (addNewParamsToOptimizer b numNew).expAvgSq.take b.expAvgSq.length = b.expAvgSq ∧
     (addNewParamsToOptimizer b numNew).expAvgSq.drop b.expAvgSq.length
       = List.replicate numNew 0) ∧
    ((addNewParamsToOptimizerOldVariant c numNew).expAvg.take c.expAvg.length = c.expAvg ∧
     (addNewParamsToOptimizerOldVariant c numNew).expAvg.drop c.expAvg.length
       = List.replicate numNew (2 / 5) ∧
     ((2 : ℚ) / 5 ≠ 0)) := by
  refine ⟨⟨?_, ?_, ?_, ?_, ?_⟩, ⟨?_, ?_, ?_, ?_, ?_⟩, ⟨?_, ?_, ?_⟩⟩ <;>
    simp [dupInOptim, addNewParamsToOptimizer, addNewParamsToOptimizerOldVariant,
      take_len_append, drop_len_append]

/-- C4 counterexample: add_new_params_to_optimizer of the CURRENT variant
appends a ZERO row to both moment buffers (torch.zeros_like), not the nonzero
constant the claim asserts for growth-port appends. -/
theorem C4_moment_extension_counterexample :
    (addNewParamsToOptimizer ⟨[1], [2]⟩ 1).expAvg = [1, 0] ∧
    (addNewParamsToOptimizer ⟨[1], [2]⟩ 1).expAvgSq = [2, 0] := by
  simp [addNewParamsToOptimizer]

/-- C5 (amended): the growth-then-cull protection exists only in the OLDER
variant, where refinement culling runs solely inside the window
5500 <= steps_since_add < 10000 with the postBA flag set (a hardcoded dwell
time, not a configuration value): with steps_since_add < 5500 — in particular
immediately after the Incremental Growth Port resets it to 0 — an
older-variant refinement pass removes no point, whatever its opacity.  The
refinement cull of the CURRENT variant is not gated by steps-since-growth at all
(its steps_since_add gate is commented out), so there a freshly grown point
below the alpha threshold is culled immediately. -/
theorem C5_growth_cull_protection (nm : Nm) (cfg : Config) (numTrainData step : ℕ)
    (lastSize : ℚ) (offsets : ℕ → ℚ) (postBA : Bool) (m : Model)
    (hd : m.stepsSinceAdd < 5500) :
    (refinementAfterOldVariant nm cfg numTrainData step lastSize offsets postBA m).store.means.take
        m.store.means.length = m.store.means ∧
    m.store.means.length ≤
      (refinementAfterOldVariant nm cfg numTrainData step lastSize offsets postBA
        m).store.means.length := by
  simp only [refinementAfterOldVariant, clearStats, opacityResetStepOldVariant,
    refinementDensify, splitGaussians, dupGaussians]
  split_ifs
  all_goals
    first
      | exact absurd (by assumption : 5500 ≤ m.stepsSinceAdd ∧ postBA = true ∧
          m.stepsSinceAdd < 10000).1 (by omega)
      | exact ⟨List.take_length _, le_refl _⟩
      | (refine ⟨?_, ?_⟩
         · rw [List.append_assoc, take_len_append]
         · simp only [List.length_append]
           rw [Nat.add_assoc]
           exact Nat.le_add_right _ _)

theorem C5_growth_cull_protection_witness :
    oneBig.stepsSinceAdd < 5500 ∧
    ((refinementAfterOldVariant nmEx defaultConfig 100 1200 100 (fun _ => 0) true
        oneBig).store.means.take oneBig.store.means.length = oneBig.store.means ∧
      oneBig.store.means.length ≤
        (refinementAfterOldVariant nmEx defaultConfig 100 1200 100 (fun _ => 0) true
          oneBig).store.means.length) :=
  ⟨by norm_num [oneBig],
   C5_growth_cull_protection nmEx defaultConfig 100 1200 100 (fun _ => 0) true oneBig
     (by norm_num [oneBig])⟩

/-- C5 counterexample: in the CURRENT variant, with steps_since_add = 0
(immediately after growth) and a point whose sigmoid-opacity 1/20 is below
the cull threshold 1/10, the refinement pass removes the point: the
population drops from 1 to 0 before any dwell time has elapsed. -/
theorem C5_growth_cull_protection_counterexample :
    oneFresh.stepsSinceAdd = 0 ∧
    nmEx.sigmoid (oneFresh.store.opacities.getD 0 0) < defaultConfig.cullAlphaThresh ∧
    oneFresh.store.means.length = 1 ∧
    (refinementAfter nmEx defaultConfig 100 1200 100 (fun _ => 0) oneFresh).store.means.length
      = 0 := by
  refine ⟨rfl, by norm_num [nmEx, oneFresh, defaultConfig], rfl, ?_⟩
  norm_num [refinementAfter, densifyStep, cullStep, opacityResetStep, clearStats,
    refinementDensify, splitGaussians, dupGaussians, dupInAllOptim, dupInOptim,
    removeFromAllOptim, removeFromOptim, cullGaussians, cullMask, highGradsMask,
    splitsMaskOf, dupsMaskOf, expMax3, shrinkScale, sel, keepNot, tile, applyMasked,
    addOffsets, countTrue, nmEx, defaultConfig, oneFresh]

/-- C6 (amended): in the CURRENT variant the cull mask marks exactly the
points with sigmoid(opacity) below the alpha threshold — the exp-scale
criterion and the screen-space criterion of cull_gaussians are commented out
and play no role — and every attribute array is compacted by the complement
of this mask, order preserved. -/
theorem C6_cull_mask (nm : Nm) (cfg : Config) (st : Store) (i : ℕ) :
    ((cullGaussians nm cfg st).2).get? i
      = (st.opacities.get? i).map (fun o => decide (nm.sigmoid o < cfg.cullAlphaThresh)) ∧
    (cullGaussians nm cfg st).1.means = keepNot ((cullGaussians nm cfg st).2) st.means ∧
    (cullGaussians nm cfg st).1.scales = keepNot ((cullGaussians nm cfg st).2) st.scales ∧
    (cullGaussians nm cfg st).1.quats = keepNot ((cullGaussians nm cfg st).2) st.quats ∧
    (cullGaussians nm cfg st).1.colorsAll = keepNot ((cullGaussians nm cfg st).2) st.colorsAll ∧
    (cullGaussians nm cfg st).1.opacities = keepNot ((cullGaussians nm cfg st).2) st.opacities := by
  refine ⟨?_, rfl, rfl, rfl, rfl, rfl⟩
  simp [cullGaussians, cullMask]

/-- The cull mask as claim C6 states it: transparency, OR the exp-scale
criterion once past the minimum number of reset cycles, OR the screen-size
criterion while below the screen-size cutoff step. -/
def cullMaskPerClaim (nm : Nm) (cfg : Config) (step : ℕ) (max2D : List ℚ) (st : Store) :
    List Bool :=
  List.zipWith (fun a b => a || b)
    (List.zipWith (fun a b => a || b)
      (st.opacities.map (fun o => decide (nm.sigmoid o < cfg.cullAlphaThresh)))
      (if cfg.refineEvery * cfg.resetAlphaEvery < step then
        st.scales.map (fun s => decide (cfg.cullScaleThresh < expMax3 nm s))
      else st.scales.map (fun _ => false)))
    (if step < cfg.stopScreenSizeAt then max2D.map (fun x => decide (cfg.cullScreenSize < x))
     else max2D.map (fun _ => false))

/-- C6 counterexample: a fully opaque but enormous gaussian (sigmoid-opacity
1/2 at threshold 1/10, exp-scale max 7.389 above the cull-scale threshold 2.9)
at step 5000 — past the minimum reset cycles 4500 — is marked by the mask the
claim describes but NOT by current-variant cull_gaussians, which keeps it. -/
theorem C6_cull_mask_counterexample :
    cullMask nmEx defaultConfig oneBig.store = [false] ∧
    cullMaskPerClaim nmEx defaultConfig 5000 [0] oneBig.store = [true] ∧
    (cullGaussians nmEx defaultConfig oneBig.store).1.means = [5] := by
  refine ⟨?_, ?_, ?_⟩ <;>
    norm_num [cullMask, cullMaskPerClaim, cullGaussians, keepNot, expMax3, nmEx,
      defaultConfig, oneBig]

/-- C7: a render call outside training with an active crop box selecting zero
points does NOT return a background-filled image in the current variant:
get_outputs reads the local variable background before its first assignment
(lines 845 versus 899/901) and raises UnboundLocalError; the spec-modelled
contract (and the crop-empty branch actually implemented in
project_gaussians) would return the background fill instead. -/
theorem C7_crop_empty_unbound :
    getOutputsCropBranch true false 0 4 4 = Except.error unboundLocalMsg ∧
    getOutputsCropBranchPerSpec true false 0 4 4 (1 / 2)
      = Except.ok (some (List.replicate 16 (1 / 2))) := by
  constructor
  · rfl
  · rfl

/-- Concrete activations for the C8 witness: exp maps inputs at least 1 to
1/50 (above the size threshold 1/100) and smaller inputs to 1/200 (below it);
log of the shrunken scale is -9. -/
def nmCross : Nm where
  sigmoid := fun _ => 1 / 2
  exp := fun x => if 1 ≤ x then 1 / 50 else 1 / 200
  log := fun _ => -9
  logit := fun q => q

/-- C8 (amended): the split and duplicate masks are NOT mutually exclusive in
general.  Two overlaps exist: (a) while step < stop_screen_size_at, a
high-gradient point whose exp-scale is at most densify_size_thresh can enter
the split mask through the screen-size clause and the duplicate mask through
its small scale; (b) the duplicate mask is evaluated on the scales AFTER
split_gaussians shrinks the parents in place, so a split parent whose shrunk
exp-scale falls to or below the threshold is selected by both.  The nearby
true statement: once step >= stop_screen_size_at, any index selected by both
masks must have had exp-scale strictly above the threshold before the
in-place shrink and at most the threshold after it — large-scale points go to
split, small-scale points to duplicate, exactly as the claim says, except
across the parent-shrink boundary. -/
theorem C8_split_dup_masks (nm : Nm) (cfg : Config) (step : ℕ) (max2D : List ℚ)
    (scales : List (ℚ × ℚ × ℚ)) (hgm : List Bool) (i : ℕ)
    (hstep : cfg.stopScreenSizeAt ≤ step)
    (hsp : (splitsMaskOf nm cfg step max2D scales hgm).getD i false = true)
    (hdp : (dupsMaskOf nm cfg
        (applyMasked (shrinkScale nm) scales (splitsMaskOf nm cfg step max2D scales hgm))
        hgm).getD i false = true) :
    cfg.densifySizeThresh < expMax3 nm (scales.getD i (0, 0, 0)) ∧
    expMax3 nm ((applyMasked (shrinkScale nm) scales
        (splitsMaskOf nm cfg step max2D scales hgm)).getD i (0, 0, 0))
      ≤ cfg.densifySizeThresh := by
  constructor
  · rw [splitsMaskOf, if_neg (by omega : ¬ step < cfg.stopScreenSizeAt)] at hsp
    have h1 := (zipWith_and_true _ _ i hsp).1
    have h2 := map_getD_true (fun s => decide (cfg.densifySizeThresh < expMax3 nm s))
      (0, 0, 0) scales i h1
    exact of_decide_eq_true h2
  · rw [dupsMaskOf] at hdp
    have h1 := (zipWith_and_true _ _ i hdp).1
    have h2 := map_getD_true (fun s => decide (expMax3 nm s ≤ cfg.densifySizeThresh))
      (0, 0, 0) _ i h1
    exact of_decide_eq_true h2

theorem C8_split_dup_masks_witness :
    defaultConfig.stopScreenSizeAt ≤ 4000 ∧
    (splitsMaskOf nmCross defaultConfig 4000 [] [(1, 1, 1)] [true]).getD 0 false = true ∧
    (dupsMaskOf nmCross defaultConfig
        (applyMasked (shrinkScale nmCross) [(1, 1, 1)]
          (splitsMaskOf nmCross defaultConfig 4000 [] [(1, 1, 1)] [true]))
        [true]).getD 0 false = true ∧
    (defaultConfig.densifySizeThresh < expMax3 nmCross (([(1, 1, 1)] :
        List (ℚ × ℚ × ℚ)).getD 0 (0, 0, 0)) ∧
      expMax3 nmCross ((applyMasked (shrinkScale nmCross) [(1, 1, 1)]
          (splitsMaskOf nmCross defaultConfig 4000 [] [(1, 1, 1)] [true])).getD 0 (0, 0, 0))
        ≤ defaultConfig.densifySizeThresh) :=
  ⟨by norm_num [defaultConfig],
   by norm_num [splitsMaskOf, expMax3, nmCross, defaultConfig],
   by norm_num [splitsMaskOf, dupsMaskOf, applyMasked, shrinkScale, expMax3, nmCross,
     defaultConfig],
   C8_split_dup_masks nmCross defaultConfig 4000 [] [(1, 1, 1)] [true] 0
     (by norm_num [defaultConfig])
     (by norm_num [splitsMaskOf, expMax3, nmCross, defaultConfig])
     (by norm_num [splitsMaskOf, dupsMaskOf, applyMasked, shrinkScale, expMax3, nmCross,
       defaultConfig])⟩

/-- C8 counterexample: in a densification at step 1200 (below the screen-size
cutoff 4000), a high-gradient point with exp-scale 1/400 at most the size
threshold 1/100 but screen footprint 1/500 above the split screen threshold
9/10000 is selected by BOTH the split mask and the duplicate mask: the masks
are not mutually exclusive. -/
theorem C8_split_dup_masks_counterexample :
    (refinementDensify nmEx defaultConfig 1200 100 (fun _ => 0) [1] [1] [1 / 500]
      ⟨[5], [(-6, -6, -6)], [7], [3], [0]⟩ oneBig.opts 2).splits = [true] ∧
    (refinementDensify nmEx defaultConfig 1200 100 (fun _ => 0) [1] [1] [1 / 500]
      ⟨[5], [(-6, -6, -6)], [7], [3], [0]⟩ oneBig.opts 2).dups = [true] := by
  constructor <;>
    norm_num [refinementDensify, splitGaussians, dupGaussians, highGradsMask,
      splitsMaskOf, dupsMaskOf, expMax3, shrinkScale, sel, tile, applyMasked,
      addOffsets, nmEx, defaultConfig, oneBig]

/-- Supporting fact: the random_quat_tensor row of the OLDER variant (with the
cosine in the fourth component) has squared norm exactly 1 for all draws
u in [0,1], in exact-real arithmetic — the construction the claim describes. -/
theorem randomQuatRowOldVariant_norm (u v w : ℝ) (hu0 : 0 ≤ u) (hu1 : u ≤ 1) :
    quatNormSq (randomQuatRowOldVariant u v w) = 1 := by
  simp only [randomQuatRowOldVariant, quatNormSq, mul_pow]
  rw [Real.sq_sqrt (by linarith), Real.sq_sqrt hu0]
  have hv := Real.sin_sq_add_cos_sq (2 * Real.pi * v)
  have hw := Real.sin_sq_add_cos_sq (2 * Real.pi * w)
  linear_combination (1 - u) * hv + u * hw

/-- C9: evaluation of random_quat_tensor of the CURRENT variant at the uniform
draws (u, v, w) = (1/2, 0, 1/4): because the fourth component repeats
sqrt(u) * sin(2 pi w) instead of using the cosine, the produced quaternion is
(0, sqrt(1/2), sqrt(1/2), sqrt(1/2)) with squared euclidean norm 3/2, not 1 —
the rotation initialization is not a unit quaternion. -/
theorem C9_random_quat_norm :
    quatNormSq (randomQuatRow (1 / 2) 0 (1 / 4)) = 3 / 2 ∧ ((3 : ℝ) / 2) ≠ 1 := by
  constructor
  · have h4 : (2 : ℝ) * Real.pi * (1 / 4) = Real.pi / 2 := by ring
    have h12 : (1 : ℝ) - 1 / 2 = 1 / 2 := by norm_num
    have hs : Real.sqrt ((1 : ℝ) / 2) ^ 2 = 1 / 2 := Real.sq_sqrt (by norm_num)
    simp only [randomQuatRow, quatNormSq, h12, mul_zero, Real.sin_zero, Real.cos_zero,
      h4, Real.sin_pi_div_two, mul_one, hs]
    norm_num [hs]
  · norm_num

/-- C10: calling add_deprojected_means with an empty list of deprojected
points is a complete no-op: the Point Store, the moment state of every optimizer,
the accumulated density-control statistics and the steps-since-growth counter
are all left exactly as they were. -/
theorem C10_empty_growth_noop (nm : Nm) (qgen : ℕ → ℚ) (cols : List ℚ) (m : Model) :
    addDeprojectedMeans nm qgen [] cols m = m := by
  simp [addDeprojectedMeans]
